import Mathlib

/-!
Verification of the `udp-over-tcp` tunnel (src/main.rs) against its
natural-language specification.

The Rust program is shallowly embedded: bytes are `Nat` (values kept below
256 by the encoders; explicit `% 2^32` where Rust truncates), byte strings are
`List Nat`, the `HashMap` flow tables are association lists, and the effectful
parts of the event loop (socket binds, `send_to` results, the clock) are passed
in explicitly as parameters, so that each code path of `main.rs` becomes a pure
state-transition function.
-/

namespace UdpOverTcp

/-! # Definitions

## Little-endian byte codecs

`u16::to_le_bytes` / `u32::to_le_bytes` and their `from_le_bytes` inverses,
as used by `UdpPacketWithSource::serialize`/`deserialize` and the frame
length prefix in `main.rs`. -/

/-- `port.to_le_bytes()` for a `u16` value (main.rs line 29). -/
def toLE16 (n : Nat) : List Nat := [n % 256, n / 256 % 256]

/-- `(len as u32).to_le_bytes()` (main.rs lines 346 and 642): the `as u32`
cast truncates modulo `2^32`. -/
def toLE32 (n : Nat) : List Nat :=
  [n % 4294967296 % 256,
   n % 4294967296 / 256 % 256,
   n % 4294967296 / 65536 % 256,
   n % 4294967296 / 16777216 % 256]

/-- `u16::from_le_bytes([b0, b1])` (main.rs line 57). -/
def readLE16 (b0 b1 : Nat) : Nat := b0 + 256 * b1

/-- `u32::from_le_bytes([b0, b1, b2, b3])` (main.rs line 438). -/
def readLE32 (b0 b1 b2 b3 : Nat) : Nat :=
  b0 + 256 * b1 + 65536 * b2 + 16777216 * b3

/-! ## Addresses and the packet codec (main.rs lines 14-79) -/

/-- `std::net::IpAddr`: an IPv4 address as four octets, or an IPv6 address as
its 16 bytes in network order.  Rust's derived equality distinguishes the two
variants, so an IPv4-mapped IPv6 value is *not* equal to its IPv4 form. -/
inductive IpAddr where
  | v4 (a b c d : Nat)
  | v6 (bytes : List Nat)
deriving DecidableEq

/-- Well-formedness of the embedding: an IPv6 address has exactly 16 bytes
(this is a type invariant of `std::net::Ipv6Addr`). -/
def IpAddr.wf : IpAddr → Prop
  | .v4 _ _ _ _ => True
  | .v6 bs => bs.length = 16

/-- `std::net::SocketAddr`. -/
structure SockAddr where
  ip : IpAddr
  port : Nat
deriving DecidableEq

/-- Well-formedness: the port is a `u16` and the IP is well formed. -/
def SockAddr.wf (a : SockAddr) : Prop := a.ip.wf ∧ a.port < 65536

/-- The `UdpPacketWithSource` struct (main.rs lines 16-20). -/
structure UdpPacketWithSource where
  source : SockAddr
  data : List Nat
deriving DecidableEq

/-- The 16 IP bytes written by `serialize` (main.rs lines 32-42): IPv4 becomes
the IPv4-mapped IPv6 form `::ffff:a.b.c.d`, IPv6 is its native 16 bytes. -/
def ipBytes : IpAddr → List Nat
  | .v4 a b c d => [0, 0, 0, 0, 0, 0, 0, 0, 0, 0, 255, 255, a, b, c, d]
  | .v6 bs => bs

/-- `UdpPacketWithSource::serialize` (main.rs lines 25-47):
2 port bytes (LE), 16 IP bytes, then the payload verbatim. -/
def UdpPacketWithSource.serialize (p : UdpPacketWithSource) : List Nat :=
  toLE16 p.source.port ++ ipBytes p.source.ip ++ p.data

/-- The IPv4-mapped detection of `deserialize` (main.rs line 61): first 10
bytes zero and bytes 10-11 equal to `0xff 0xff`. -/
def isMappedBytes (bs : List Nat) : Bool :=
  decide (bs.take 10 = List.replicate 10 0) && decide ((bs.drop 10).take 2 = [255, 255])

/-- IP reconstruction from a 16-byte slice (main.rs lines 61-69). -/
def ipFromBytes (bs : List Nat) : IpAddr :=
  if isMappedBytes bs then
    .v4 (bs.getD 12 0) (bs.getD 13 0) (bs.getD 14 0) (bs.getD 15 0)
  else
    .v6 bs

/-- `UdpPacketWithSource::deserialize` (main.rs lines 51-78): `None` on fewer
than 18 bytes, otherwise port from bytes 0-1, IP from bytes 2-17, payload is
the rest. -/
def UdpPacketWithSource.deserialize (msg : List Nat) : Option UdpPacketWithSource :=
  if msg.length < 18 then none
  else
    some { source := { ip := ipFromBytes ((msg.drop 2).take 16),
                       port := readLE16 (msg.getD 0 0) (msg.getD 1 0) },
           data := msg.drop 18 }

/-- Whether an address is in the IPv4-mapped-IPv6 form that `deserialize`
collapses to IPv4. -/
def IpAddr.isMappedV6 : IpAddr → Bool
  | .v4 _ _ _ _ => false
  | .v6 bs => isMappedBytes bs

/-! ## The TCP frame decode loop (main.rs lines 433-444, 554-560)

The loop pulls complete `{len:u32 LE}{body:len}` frames off the front of the
accumulated TCP buffer.  `decodeLoop buf` returns the list of frame bodies in
order together with the leftover bytes: the leftover is what the program
keeps in `tcp_buf` for the next read (lines 554-560). -/

def decodeLoop (buf : List Nat) : List (List Nat) × List Nat :=
  match buf with
  | b0 :: b1 :: b2 :: b3 :: tail =>
    let len := readLE32 b0 b1 b2 b3
    if tail.length < len then ([], b0 :: b1 :: b2 :: b3 :: tail)
    else
      let res := decodeLoop (tail.drop len)
      (tail.take len :: res.1, res.2)
  | short => ([], short)
termination_by buf.length
decreasing_by simp [List.length_drop]; omega

/-- The length-prefixed encoding of one frame body, as written by the program
(main.rs lines 345-346 and 641-642): `(body.len() as u32).to_le_bytes()`
followed by the body. -/
def encodeFrame (body : List Nat) : List Nat := toLE32 body.length ++ body

/-- The 4 length-prefix bytes the program writes before a serialized body
(main.rs lines 346 and 642). -/
def lenHeader (body : List Nat) : List Nat := toLE32 body.length

/-! ## Association lists standing in for the `HashMap`s of main.rs -/

def aremove {β : Type} (l : List (SockAddr × β)) (k : SockAddr) : List (SockAddr × β) :=
  l.filter (fun q => decide (q.1 ≠ k))

def ainsert {β : Type} (l : List (SockAddr × β)) (k : SockAddr) (v : β) :
    List (SockAddr × β) :=
  (k, v) :: aremove l k

def alookup {β : Type} (l : List (SockAddr × β)) (k : SockAddr) : Option β :=
  match l with
  | [] => none
  | q :: t => if q.1 = k then some q.2 else alookup t k

/-! ## Flow state and the event-loop state (main.rs lines 214-238) -/

/-- A per-flow ephemeral UDP socket (created by `UdpSocket::bind("0.0.0.0:0")`,
main.rs line 470).  Bound to the wildcard address, so its kernel-reported
local address is `0.0.0.0:localPort`. -/
structure FlowSocket where
  localPort : Nat
deriving DecidableEq

/-- The port-only reverse-index key (main.rs lines 487, 541, 626):
`SocketAddr::new(0.0.0.0, port)`. -/
def portKey (port : Nat) : SockAddr := ⟨.v4 0 0 0 0, port⟩

/-- `socket.local_addr()` of a wildcard-bound flow socket. -/
def FlowSocket.localAddr (s : FlowSocket) : SockAddr := portKey s.localPort

/-- The four flow maps of main.rs lines 215-217 and 238. -/
structure FlowState where
  flow_sockets : List (SockAddr × FlowSocket)
  socket_to_client : List (SockAddr × SockAddr)
  socket_last_activity : List (SockAddr × Nat)
  flow_packet_counts : List (SockAddr × Nat)
deriving DecidableEq

/-- The state after `cleanup_flow_state!` (main.rs lines 242-258): all four
maps cleared. -/
def emptyFlows : FlowState := ⟨[], [], [], []⟩

/-- The event-loop state relevant to carrier error handling: whether a TCP
carrier is live (`tcp: Option<TcpStream>`), the pending reconnect timer
(`connect_again`, in seconds), and the flow maps. -/
structure LoopState where
  tcp : Bool
  connect_again : Option Nat
  flows : FlowState
deriving DecidableEq

/-! ## Carrier error handling (main.rs lines 344-360, 398-431, 644-655) -/

/-- The TCP carrier I/O failures handled by the event loop:
write/flush failure on the UDP-ingress path (lines 348-360), EOF and read
error on the carrier (lines 398-418), and write/flush failure on the
return-packet path (lines 644-655). -/
inductive TcpErrorEvent where
  | ingressWriteErr
  | ingressFlushErr
  | readEof
  | readErr
  | returnWriteErr
  | returnFlushErr
deriving DecidableEq

/-- What each carrier error path does to the loop state, transcribed from
main.rs: every path drops the carrier and runs `cleanup_flow_state!`; only
the read *error* path (lines 408-417) additionally arms the 3-second
reconnect timer when not listening.  The `n == 0` EOF branch that would arm
the timer (lines 422-431) is unreachable: the earlier `Ok(0)` branch at
lines 401-406 `continue`s first. -/
def handleTcpError (listen : Bool) (e : TcpErrorEvent) (s : LoopState) : LoopState :=
  match e with
  | .readErr =>
      { tcp := false, flows := emptyFlows,
        connect_again := if listen then s.connect_again else some 3 }
  | _ =>
      { tcp := false, flows := emptyFlows, connect_again := s.connect_again }

/-! ## Processing one decoded TCP frame (main.rs lines 446-551) -/

/-- The environment of one frame-processing step: the result of
`UdpSocket::bind("0.0.0.0:0")` if a new flow socket is needed (line 470),
whether `send_to` succeeds (line 533), and `SystemTime::now()` (line 448). -/
structure FrameEffects where
  bindResult : Option FlowSocket
  sendOk : Bool
  now : Nat

/-- Lines 508-548: packet-count tracking, activity refresh, the UDP forward,
and the deferred reverse-mapping refresh on the first packet of a flow.
`flowSock` is the selected per-flow socket (`None` when the primary socket is
used, i.e. outside listen/auto mode). -/
def afterSocketSelect (lis isAuto : Bool) (eff : FrameEffects) (st : FlowState)
    (packet : UdpPacketWithSource) (flowSock : Option FlowSocket) : FlowState :=
  let count := (alookup st.flow_packet_counts packet.source).getD 0 + 1
  let st1 : FlowState :=
    { st with
      flow_packet_counts := ainsert st.flow_packet_counts packet.source count,
      socket_last_activity := ainsert st.socket_last_activity packet.source eff.now }
  if eff.sendOk then
    if lis && isAuto && count == 1 then
      match flowSock with
      | some sock =>
          { st1 with socket_to_client :=
              ainsert st1.socket_to_client (portKey sock.localPort) packet.source }
      | none => st1
    else st1
  else st1

/-- Lines 464-548: handling of one successfully deserialized packet.  In
listen/auto mode an unseen source gets a fresh flow socket with a provisional
reverse mapping and activity entry (lines 468-497), a bind failure skips the
frame (`continue`, line 495), and a seen source refreshes its activity
(line 500); all other modes use the primary socket (line 505). -/
def handlePacket (lis isAuto : Bool) (eff : FrameEffects) (st : FlowState)
    (packet : UdpPacketWithSource) : FlowState :=
  if lis && isAuto then
    match alookup st.flow_sockets packet.source with
    | none =>
        match eff.bindResult with
        | none => st
        | some sock =>
            let st1 : FlowState :=
              { st with
                socket_to_client :=
                  ainsert st.socket_to_client (portKey sock.localPort) packet.source,
                flow_sockets := ainsert st.flow_sockets packet.source sock,
                socket_last_activity :=
                  ainsert st.socket_last_activity packet.source eff.now }
            afterSocketSelect lis isAuto eff st1 packet (some sock)
    | some sock =>
        let st1 : FlowState :=
          { st with socket_last_activity :=
              ainsert st.socket_last_activity packet.source eff.now }
        afterSocketSelect lis isAuto eff st1 packet (some sock)
  else
    afterSocketSelect lis isAuto eff st packet none

/-- Lines 446-551: handling of one frame body pulled off the TCP buffer.
On deserialization failure the frame is only logged (line 550) and the state
is untouched. -/
def handleFrameBody (lis isAuto : Bool) (eff : FrameEffects) (st : FlowState)
    (msg : List Nat) : FlowState :=
  match UdpPacketWithSource.deserialize msg with
  | none => st
  | some packet => handlePacket lis isAuto eff st packet

/-- Frame handling never touches the carrier slot or the reconnect timer
(no assignment to `tcp` or `connect_again` anywhere in lines 446-551). -/
def handleFrame (lis isAuto : Bool) (eff : FrameEffects) (s : LoopState)
    (msg : List Nat) : LoopState :=
  { s with flows := handleFrameBody lis isAuto eff s.flows msg }

/-- One TCP read event (lines 433-560): decode all complete frames from the
buffer, process them in order, and keep the leftover bytes. -/
def processTcpRead (lis isAuto : Bool) (eff : FrameEffects) (s : LoopState)
    (buf : List Nat) : LoopState × List Nat :=
  ((decodeLoop buf).1.foldl (handleFrame lis isAuto eff) s, (decodeLoop buf).2)

/-! ## Idle sweeps (main.rs lines 566-610) -/

/-- The flows collected as idle by either sweep: `now.duration_since(last)`
succeeds (`last ≤ now`) and exceeds 600 seconds, i.e. `last + 600 < now`. -/
def idleKeys (now : Nat) (activity : List (SockAddr × Nat)) : List SockAddr :=
  (activity.filter (fun q => decide (q.2 + 600 < now))).map (fun q => q.1)

/-- One removal of the listen-side sweep (lines 579-588): only if the flow
still owns a socket are the socket, its reverse-index entry (keyed by the
socket's local address) and the activity entry removed.  The packet-count
entry is left in place. -/
def listenSweepStep (st : FlowState) (addr : SockAddr) : FlowState :=
  match alookup st.flow_sockets addr with
  | some sock =>
      { st with
        flow_sockets := aremove st.flow_sockets addr,
        socket_to_client := aremove st.socket_to_client sock.localAddr,
        socket_last_activity := aremove st.socket_last_activity addr }
  | none => st

/-- The listen-side idle sweep (lines 566-589), gated on
`listen && !flow_sockets.is_empty()`. -/
def listenIdleSweep (now : Nat) (st : FlowState) : FlowState :=
  if st.flow_sockets.isEmpty then st
  else (idleKeys now st.socket_last_activity).foldl listenSweepStep st

/-- One removal of the connect-side sweep (lines 605-608): activity and
packet-count entries are removed. -/
def connectSweepStep (st : FlowState) (addr : SockAddr) : FlowState :=
  { st with
    socket_last_activity := aremove st.socket_last_activity addr,
    flow_packet_counts := aremove st.flow_packet_counts addr }

/-- The connect-side idle sweep (lines 591-610), gated on
`!listen && !socket_last_activity.is_empty()`. -/
def connectIdleSweep (now : Nat) (st : FlowState) : FlowState :=
  if st.socket_last_activity.isEmpty then st
  else (idleKeys now st.socket_last_activity).foldl connectSweepStep st

/-! ## Startup validation (main.rs lines 84-94, 182-191) -/

/-- The `PortSpec` enum (main.rs lines 84-88). -/
inductive PortSpec where
  | fixedAddr (addr : SockAddr)
  | autoIp (ip : IpAddr)
deriving DecidableEq

/-- `PortSpec::is_auto` (main.rs lines 91-93). -/
def PortSpec.is_auto : PortSpec → Bool
  | .fixedAddr _ => false
  | .autoIp _ => true

/-- The auto-mode validation match (main.rs lines 183-191): `true` means the
configuration passes, `false` means startup bails out (before any socket is
created; the UDP and TCP sockets are only made at lines 196-229, after this
match). -/
def validateStartup (udp_bind udp_sendto : PortSpec) (listen : Bool) : Bool :=
  match udp_bind, udp_sendto, listen with
  | .autoIp _, _, false => false
  | _, .autoIp _, true => false
  | _, _, _ => true

/-! # Helper lemmas -/

theorem readLE16_toLE16 (n : Nat) (h : n < 65536) :
    readLE16 (n % 256) (n / 256 % 256) = n := by
  unfold readLE16; omega

theorem readLE32_toLE32 (n : Nat) (h : n < 4294967296) :
    readLE32 (n % 4294967296 % 256) (n % 4294967296 / 256 % 256)
      (n % 4294967296 / 65536 % 256) (n % 4294967296 / 16777216 % 256) = n := by
  unfold readLE32; omega

theorem ipBytes_length (ip : IpAddr) (h : ip.wf) : (ipBytes ip).length = 16 := by
  cases ip with
  | v4 a b c d => rfl
  | v6 bs => simpa [ipBytes] using h

theorem deserialize_append18 (pre post : List Nat) (h : pre.length = 18) :
    UdpPacketWithSource.deserialize (pre ++ post) =
      some { source := { ip := ipFromBytes ((pre.drop 2).take 16),
                         port := readLE16 (pre.getD 0 0) (pre.getD 1 0) },
             data := post } := by
  unfold UdpPacketWithSource.deserialize
  have hlen : (pre ++ post).length = 18 + post.length := by
    simp [List.length_append, h]
  rw [if_neg (by omega)]
  have hg0 : (pre ++ post).getD 0 0 = pre.getD 0 0 :=
    List.getD_append _ _ _ _ (by omega)
  have hg1 : (pre ++ post).getD 1 0 = pre.getD 1 0 :=
    List.getD_append _ _ _ _ (by omega)
  have hdrop2 : (pre ++ post).drop 2 = pre.drop 2 ++ post :=
    List.drop_append_of_le_length (by omega)
  have hdrop2len : (pre.drop 2).length = 16 := by
    simp [List.length_drop, h]
  have htake : (pre.drop 2 ++ post).take 16 = pre.drop 2 :=
    List.take_left' hdrop2len
  have hdrop18 : (pre ++ post).drop 18 = post := List.drop_left' h
  have htake2 : (pre.drop 2).take 16 = pre.drop 2 :=
    List.take_of_length_le (le_of_eq hdrop2len)
  rw [hg0, hg1, hdrop2, htake, hdrop18, htake2]

/-- Serialization splits as an 18-byte header followed by the payload. -/
theorem serialize_split (p : UdpPacketWithSource) :
    p.serialize = (toLE16 p.source.port ++ ipBytes p.source.ip) ++ p.data := by
  simp [UdpPacketWithSource.serialize, List.append_assoc]

theorem serialize_header_length (p : UdpPacketWithSource) (h : p.source.ip.wf) :
    (toLE16 p.source.port ++ ipBytes p.source.ip).length = 18 := by
  simp [toLE16, List.length_append, ipBytes_length _ h]

/-- Core round-trip computation: deserializing a serialized packet yields the
original payload and port, with the IP normalized through `ipFromBytes ∘ ipBytes`. -/
theorem deserialize_serialize (p : UdpPacketWithSource) (h : p.source.wf) :
    UdpPacketWithSource.deserialize p.serialize =
      some { source := { ip := ipFromBytes (ipBytes p.source.ip),
                         port := p.source.port },
             data := p.data } := by
  obtain ⟨hip, hport⟩ := h
  rw [serialize_split, deserialize_append18 _ _ (serialize_header_length p hip)]
  have hpre : toLE16 p.source.port ++ ipBytes p.source.ip =
      p.source.port % 256 :: (p.source.port / 256 % 256) :: ipBytes p.source.ip := by
    simp [toLE16]
  have hdrop : (toLE16 p.source.port ++ ipBytes p.source.ip).drop 2 = ipBytes p.source.ip := by
    rw [hpre]; rfl
  have htake : (ipBytes p.source.ip).take 16 = ipBytes p.source.ip := by
    apply List.take_of_length_le
    exact le_of_eq (ipBytes_length _ hip)
  have hg0 : (toLE16 p.source.port ++ ipBytes p.source.ip).getD 0 0 = p.source.port % 256 := by
    rw [hpre]; rfl
  have hg1 : (toLE16 p.source.port ++ ipBytes p.source.ip).getD 1 0 =
      p.source.port / 256 % 256 := by
    rw [hpre]; rfl
  rw [hdrop, htake, hg0, hg1, readLE16_toLE16 _ hport]

/-- For an IPv4 source the mapped encoding decodes back to the same IPv4. -/
theorem ipFromBytes_ipBytes_v4 (a b c d : Nat) :
    ipFromBytes (ipBytes (.v4 a b c d)) = .v4 a b c d := rfl

/-- A non-mapped IP decodes back to itself. -/
theorem ipFromBytes_ipBytes_of_not_mapped (ip : IpAddr) (h : ip.isMappedV6 = false) :
    ipFromBytes (ipBytes ip) = ip := by
  cases ip with
  | v4 a b c d => exact ipFromBytes_ipBytes_v4 a b c d
  | v6 bs =>
      have hm : isMappedBytes bs = false := by simpa [IpAddr.isMappedV6] using h
      simp [ipFromBytes, ipBytes, hm]

theorem decodeLoop_nil : decodeLoop [] = ([], []) := by
  rw [decodeLoop]; intros; simp_all

theorem decodeLoop_short (buf : List Nat) (h : buf.length < 4) :
    decodeLoop buf = ([], buf) := by
  match buf with
  | [] => rw [decodeLoop]; intros; simp_all
  | [a] => rw [decodeLoop]; intros; simp_all
  | [a, b] => rw [decodeLoop]; intros; simp_all
  | [a, b, c] => rw [decodeLoop]; intros; simp_all
  | a :: b :: c :: d :: t => simp [List.length_cons] at h; omega

theorem decodeLoop_incomplete (b0 b1 b2 b3 : Nat) (tail : List Nat)
    (h : tail.length < readLE32 b0 b1 b2 b3) :
    decodeLoop (b0 :: b1 :: b2 :: b3 :: tail) = ([], b0 :: b1 :: b2 :: b3 :: tail) := by
  rw [decodeLoop]
  simp [h]

theorem decodeLoop_encodeFrame (body rest : List Nat) (h : body.length < 4294967296) :
    decodeLoop (encodeFrame body ++ rest) =
      ((body :: (decodeLoop rest).1, (decodeLoop rest).2) :
        List (List Nat) × List Nat) := by
  have hcons : encodeFrame body ++ rest =
      body.length % 4294967296 % 256 :: body.length % 4294967296 / 256 % 256 ::
      body.length % 4294967296 / 65536 % 256 ::
      body.length % 4294967296 / 16777216 % 256 :: (body ++ rest) := by
    simp [encodeFrame, toLE32]
  rw [hcons, decodeLoop]
  have hread : readLE32 (body.length % 4294967296 % 256)
      (body.length % 4294967296 / 256 % 256) (body.length % 4294967296 / 65536 % 256)
      (body.length % 4294967296 / 16777216 % 256) = body.length :=
    readLE32_toLE32 _ h
  rw [hread]
  have hnotlt : ¬ (body ++ rest).length < body.length := by
    simp [List.length_append]
  rw [if_neg hnotlt]
  have htake : (body ++ rest).take body.length = body := List.take_left _ _
  have hdrop : (body ++ rest).drop body.length = rest := List.drop_left _ _
  rw [htake, hdrop]

/-- Decoding a concatenation of encoded frames yields exactly those frames in
order and an empty leftover buffer. -/
theorem decodeLoop_concat (frames : List (List Nat))
    (h : ∀ f ∈ frames, f.length < 4294967296) :
    decodeLoop (frames.map encodeFrame).flatten = (frames, []) := by
  induction frames with
  | nil => simpa using decodeLoop_nil
  | cons f fs ih =>
      have hf : f.length < 4294967296 := h f (List.mem_cons_self f fs)
      have hfs : ∀ g ∈ fs, g.length < 4294967296 :=
        fun g hg => h g (List.mem_cons_of_mem f hg)
      have hflat : ((f :: fs).map encodeFrame).flatten =
          encodeFrame f ++ (fs.map encodeFrame).flatten := by
        simp [List.map_cons, List.flatten_cons]
      rw [hflat, decodeLoop_encodeFrame _ _ hf, ih hfs]

theorem alookup_aremove_self {β : Type} (l : List (SockAddr × β)) (k : SockAddr) :
    alookup (aremove l k) k = none := by
  induction l with
  | nil => rfl
  | cons q t ih =>
      by_cases hq : q.1 = k
      · simpa [aremove, List.filter, hq] using ih
      · simpa [aremove, List.filter, hq, alookup] using ih

theorem alookup_aremove_ne {β : Type} (l : List (SockAddr × β)) (k k' : SockAddr)
    (h : k' ≠ k) : alookup (aremove l k) k' = alookup l k' := by
  induction l with
  | nil => rfl
  | cons q t ih =>
      unfold aremove at ih ⊢
      by_cases hq : q.1 = k
      · rw [List.filter_cons_of_neg (by simp [hq])]
        rw [ih]
        have hq' : ¬ q.1 = k' := by rw [hq]; exact fun he => h he.symm
        simp [alookup, hq']
      · rw [List.filter_cons_of_pos (by simp [hq])]
        by_cases hq' : q.1 = k'
        · simp [alookup, hq']
        · simp only [alookup, hq', if_false]
          simpa using ih

theorem alookup_ainsert_self {β : Type} (l : List (SockAddr × β)) (k : SockAddr) (v : β) :
    alookup (ainsert l k v) k = some v := by
  simp [ainsert, alookup]

theorem alookup_ainsert_ne {β : Type} (l : List (SockAddr × β)) (k k' : SockAddr) (v : β)
    (h : k' ≠ k) : alookup (ainsert l k v) k' = alookup l k' := by
  have hk : k ≠ k' := fun he => h he.symm
  simp only [ainsert, alookup, hk, if_false]
  exact alookup_aremove_ne l k k' h

theorem alookup_aremove_none {β : Type} (l : List (SockAddr × β)) (k k' : SockAddr)
    (h : alookup l k' = none) : alookup (aremove l k) k' = none := by
  by_cases he : k' = k
  · rw [he]; exact alookup_aremove_self l k
  · rw [alookup_aremove_ne l k k' he]; exact h

theorem alookup_ne_nil {β : Type} (l : List (SockAddr × β)) (k : SockAddr) (v : β)
    (h : alookup l k = some v) : l ≠ [] := by
  intro he; rw [he] at h; exact Option.noConfusion h

/-- A flow whose (first) activity entry is stale is collected by the sweeps. -/
theorem mem_idleKeys (activity : List (SockAddr × Nat)) (now : Nat) (addr : SockAddr)
    (t : Nat) (h : alookup activity addr = some t) (ht : t + 600 < now) :
    addr ∈ idleKeys now activity := by
  induction activity with
  | nil => exact absurd h (by simp [alookup])
  | cons q rest ih =>
      unfold idleKeys at ih ⊢
      by_cases hq : q.1 = addr
      · have hqt : q.2 = t := by
          have := h
          simp only [alookup, hq, if_pos] at this
          exact Option.some.inj this
        rw [List.filter_cons_of_pos (by simp [hqt]; omega)]
        simp [hq]
      · have h' : alookup rest addr = some t := by
          simpa [alookup, hq] using h
        have hmem := ih h'
        by_cases hfq : q.2 + 600 < now
        · rw [List.filter_cons_of_pos (by simp [hfq])]
          simp only [List.map_cons, List.mem_cons]
          exact Or.inr hmem
        · rw [List.filter_cons_of_neg (by simp [hfq])]
          exact hmem

/-- Once a flow's connect-side entries are gone, further sweep steps keep
them gone. -/
theorem connectSweep_foldl_none (keys : List SockAddr) (st : FlowState) (addr : SockAddr)
    (h1 : alookup st.socket_last_activity addr = none)
    (h2 : alookup st.flow_packet_counts addr = none) :
    alookup (keys.foldl connectSweepStep st).socket_last_activity addr = none ∧
    alookup (keys.foldl connectSweepStep st).flow_packet_counts addr = none := by
  induction keys generalizing st with
  | nil => exact ⟨h1, h2⟩
  | cons b rest ih =>
      rw [List.foldl_cons]
      exact ih (connectSweepStep st b)
        (alookup_aremove_none _ _ _ h1) (alookup_aremove_none _ _ _ h2)

/-- Folding the connect-side sweep step over a key list containing `addr`
removes `addr`'s activity and packet-count entries. -/
theorem connectSweep_foldl_removes (keys : List SockAddr) (st : FlowState)
    (addr : SockAddr) (hmem : addr ∈ keys) :
    alookup (keys.foldl connectSweepStep st).socket_last_activity addr = none ∧
    alookup (keys.foldl connectSweepStep st).flow_packet_counts addr = none := by
  induction keys generalizing st with
  | nil => cases hmem
  | cons b rest ih =>
      rw [List.foldl_cons]
      by_cases hba : addr = b
      · subst hba
        exact connectSweep_foldl_none rest _ addr
          (alookup_aremove_self _ _) (alookup_aremove_self _ _)
      · have hm : addr ∈ rest := by
          rcases List.mem_cons.mp hmem with he | hm
          · exact absurd he hba
          · exact hm
        exact ih (connectSweepStep st b) hm

/-- Once a flow's listen-side entries are gone, further sweep steps keep
them gone (the step only filters lists, never adds). -/
theorem listenSweep_foldl_none (keys : List SockAddr) (st : FlowState) (addr : SockAddr)
    (rk : SockAddr)
    (h1 : alookup st.flow_sockets addr = none)
    (h2 : alookup st.socket_last_activity addr = none)
    (h3 : alookup st.socket_to_client rk = none) :
    alookup (keys.foldl listenSweepStep st).flow_sockets addr = none ∧
    alookup (keys.foldl listenSweepStep st).socket_last_activity addr = none ∧
    alookup (keys.foldl listenSweepStep st).socket_to_client rk = none := by
  induction keys generalizing st with
  | nil => exact ⟨h1, h2, h3⟩
  | cons b rest ih =>
      rw [List.foldl_cons]
      unfold listenSweepStep
      cases hb : alookup st.flow_sockets b with
      | none => exact ih st h1 h2 h3
      | some sockb =>
          exact ih _ (alookup_aremove_none _ _ _ h1)
            (alookup_aremove_none _ _ _ h2) (alookup_aremove_none _ _ _ h3)

/-- Folding the listen-side sweep step over a key list containing `addr`
removes `addr`'s socket, activity entry, and the reverse-index entry keyed
by the socket's local address. -/
theorem listenSweep_foldl_removes (keys : List SockAddr) (st : FlowState)
    (addr : SockAddr) (sock : FlowSocket) (hmem : addr ∈ keys)
    (hsock : alookup st.flow_sockets addr = some sock) :
    alookup (keys.foldl listenSweepStep st).flow_sockets addr = none ∧
    alookup (keys.foldl listenSweepStep st).socket_last_activity addr = none ∧
    alookup (keys.foldl listenSweepStep st).socket_to_client sock.localAddr = none := by
  induction keys generalizing st with
  | nil => cases hmem
  | cons b rest ih =>
      rw [List.foldl_cons]
      by_cases hba : addr = b
      · subst hba
        have hstep : listenSweepStep st addr =
            { st with
              flow_sockets := aremove st.flow_sockets addr,
              socket_to_client := aremove st.socket_to_client sock.localAddr,
              socket_last_activity := aremove st.socket_last_activity addr } := by
          unfold listenSweepStep
          rw [hsock]
        rw [hstep]
        exact listenSweep_foldl_none rest _ addr sock.localAddr
          (alookup_aremove_self _ _) (alookup_aremove_self _ _)
          (alookup_aremove_self _ _)
      · have hm : addr ∈ rest := by
          rcases List.mem_cons.mp hmem with he | hm
          · exact absurd he hba
          · exact hm
        have hpres : alookup (listenSweepStep st b).flow_sockets addr = some sock := by
          unfold listenSweepStep
          cases hb : alookup st.flow_sockets b with
          | none => exact hsock
          | some sockb =>
              simpa [alookup_aremove_ne _ _ _ hba] using hsock
        exact ih (listenSweepStep st b) hm hpres

theorem handleFrameBody_none (lis isAuto : Bool) (eff : FrameEffects) (st : FlowState)
    (msg : List Nat) (hmsg : UdpPacketWithSource.deserialize msg = none) :
    handleFrameBody lis isAuto eff st msg = st := by
  unfold handleFrameBody
  rw [hmsg]

theorem handleFrameBody_some (lis isAuto : Bool) (eff : FrameEffects) (st : FlowState)
    (msg : List Nat) (p : UdpPacketWithSource)
    (hmsg : UdpPacketWithSource.deserialize msg = some p) :
    handleFrameBody lis isAuto eff st msg = handlePacket lis isAuto eff st p := by
  unfold handleFrameBody
  rw [hmsg]

/-- Reduction of `handlePacket` on a seen flow (listen/auto, hit branch). -/
theorem handlePacket_hit (eff : FrameEffects) (st : FlowState)
    (p : UdpPacketWithSource) (sock : FlowSocket)
    (hhit : alookup st.flow_sockets p.source = some sock) :
    handlePacket true true eff st p =
      afterSocketSelect true true eff
        { st with socket_last_activity := ainsert st.socket_last_activity p.source eff.now }
        p (some sock) := by
  unfold handlePacket
  rw [hhit]
  rfl

/-- Reduction of `handlePacket` on an unseen flow with a successful bind. -/
theorem handlePacket_miss_bind (eff : FrameEffects) (st : FlowState)
    (p : UdpPacketWithSource) (sock : FlowSocket)
    (hmiss : alookup st.flow_sockets p.source = none)
    (hbind : eff.bindResult = some sock) :
    handlePacket true true eff st p =
      afterSocketSelect true true eff
        { st with
          socket_to_client := ainsert st.socket_to_client (portKey sock.localPort) p.source,
          flow_sockets := ainsert st.flow_sockets p.source sock,
          socket_last_activity := ainsert st.socket_last_activity p.source eff.now }
        p (some sock) := by
  unfold handlePacket
  rw [hmiss, hbind]
  rfl

/-- Reduction of `handlePacket` on an unseen flow whose socket bind fails:
the `continue` at line 495 leaves the state untouched. -/
theorem handlePacket_miss_nobind (eff : FrameEffects) (st : FlowState)
    (p : UdpPacketWithSource)
    (hmiss : alookup st.flow_sockets p.source = none)
    (hbind : eff.bindResult = none) :
    handlePacket true true eff st p = st := by
  unfold handlePacket
  rw [hmiss, hbind]
  rfl

/-- `afterSocketSelect` on the first packet of a flow (previous count absent
or zero) with a successful send: count becomes 1, activity is refreshed, and
the reverse mapping is upserted under the socket's local port. -/
theorem afterSocketSelect_first (eff : FrameEffects) (st : FlowState)
    (p : UdpPacketWithSource) (sock : FlowSocket)
    (hsend : eff.sendOk = true)
    (hcount : (alookup st.flow_packet_counts p.source).getD 0 = 0) :
    afterSocketSelect true true eff st p (some sock) =
      { st with
        flow_packet_counts := ainsert st.flow_packet_counts p.source 1,
        socket_last_activity := ainsert st.socket_last_activity p.source eff.now,
        socket_to_client :=
          ainsert st.socket_to_client (portKey sock.localPort) p.source } := by
  simp only [afterSocketSelect, hsend, hcount]
  rfl

/-- `afterSocketSelect` on a later packet of a flow (previous count at least
one) with a successful send: only count and activity change; the reverse
index is untouched. -/
theorem afterSocketSelect_later (eff : FrameEffects) (st : FlowState)
    (p : UdpPacketWithSource) (sock : FlowSocket) (n : Nat)
    (hsend : eff.sendOk = true)
    (hcount : alookup st.flow_packet_counts p.source = some n) (hn : 1 ≤ n) :
    afterSocketSelect true true eff st p (some sock) =
      { st with
        flow_packet_counts := ainsert st.flow_packet_counts p.source (n + 1),
        socket_last_activity := ainsert st.socket_last_activity p.source eff.now } := by
  have hne : (n + 1 == 1) = false := by
    simp only [beq_eq_false_iff_ne, ne_eq]
    omega
  simp only [afterSocketSelect, hsend, hcount, Option.getD_some, hne, Bool.and_false,
    Bool.false_eq_true, if_false, if_true]

/-- Fields of `afterSocketSelect` in every branch: the flow-socket table is
never touched, the activity entry is always refreshed, and the reverse index
is either untouched or upserted at the selected socket's port key. -/
theorem afterSocketSelect_fields (lis isAuto : Bool) (eff : FrameEffects)
    (st : FlowState) (p : UdpPacketWithSource) (fs : Option FlowSocket) :
    (afterSocketSelect lis isAuto eff st p fs).flow_sockets = st.flow_sockets ∧
    (afterSocketSelect lis isAuto eff st p fs).socket_last_activity =
      ainsert st.socket_last_activity p.source eff.now ∧
    ((afterSocketSelect lis isAuto eff st p fs).socket_to_client =
        st.socket_to_client ∨
      ∃ sock, fs = some sock ∧
        (afterSocketSelect lis isAuto eff st p fs).socket_to_client =
          ainsert st.socket_to_client (portKey sock.localPort) p.source) := by
  simp only [afterSocketSelect]
  split
  · split
    · cases fs with
      | none => exact ⟨rfl, rfl, Or.inl rfl⟩
      | some sock => exact ⟨rfl, rfl, Or.inr ⟨sock, rfl, rfl⟩⟩
    · exact ⟨rfl, rfl, Or.inl rfl⟩
  · exact ⟨rfl, rfl, Or.inl rfl⟩

/-! # Claim theorems -/

/-- C1 (counterexample): the codec round-trip is *not* the identity on every
source address.  For the IPv4-mapped IPv6 source `::ffff:192.0.2.7:33333`
(the very case the claim singles out), `deserialize ∘ serialize` returns the
IPv4 form `192.0.2.7:33333`, which is a different `SocketAddr` value than the
original IPv6 one. -/
theorem c1_roundtrip_counterexample :
    UdpPacketWithSource.deserialize
        (UdpPacketWithSource.serialize
          ⟨⟨.v6 [0, 0, 0, 0, 0, 0, 0, 0, 0, 0, 255, 255, 192, 0, 2, 7], 33333⟩, [104]⟩) ≠
      some ⟨⟨.v6 [0, 0, 0, 0, 0, 0, 0, 0, 0, 0, 255, 255, 192, 0, 2, 7], 33333⟩, [104]⟩ := by
  decide

/-- C1 (amended): for every well-formed source and payload within the length
bound, the round-trip returns the payload byte-exact and the source with its
IP canonicalized by the decoder's IPv4-mapped detection; whenever the source
is not an IPv4-mapped IPv6 address (in particular for every IPv4 source and
every other IPv6 source), the round-trip is the identity. -/
theorem c1_roundtrip_canonical (p : UdpPacketWithSource) (hwf : p.source.wf)
    (_hlen : p.data.length ≤ 4294967296 - 18 - 1) :
    UdpPacketWithSource.deserialize p.serialize =
      some { source := { ip := ipFromBytes (ipBytes p.source.ip),
                         port := p.source.port },
             data := p.data } ∧
    (p.source.ip.isMappedV6 = false →
      UdpPacketWithSource.deserialize p.serialize = some p) := by
  refine ⟨deserialize_serialize p hwf, fun hnm => ?_⟩
  rw [deserialize_serialize p hwf, ipFromBytes_ipBytes_of_not_mapped _ hnm]

theorem c1_roundtrip_canonical_witness :
    UdpPacketWithSource.deserialize
        (UdpPacketWithSource.serialize ⟨⟨.v4 10 0 0 1, 40001⟩, [1, 2, 3]⟩) =
      some ⟨⟨.v4 10 0 0 1, 40001⟩, [1, 2, 3]⟩ :=
  (c1_roundtrip_canonical ⟨⟨.v4 10 0 0 1, 40001⟩, [1, 2, 3]⟩
      ⟨trivial, by decide⟩ (by decide)).2 (by decide)

/-- C2: the TCP-buffer decode loop applied to a concatenation of
length-prefixed encodings yields exactly those frame bodies in order with an
empty leftover buffer; a buffer of fewer than 4 bytes, or one whose declared
body length exceeds the bytes after the prefix, is left untouched for the
next read. -/
theorem c2_stream_framing :
    (∀ frames : List (List Nat), (∀ f ∈ frames, f.length < 4294967296) →
      decodeLoop (frames.map encodeFrame).flatten = (frames, [])) ∧
    (∀ buf : List Nat, buf.length < 4 → decodeLoop buf = ([], buf)) ∧
    (∀ (b0 b1 b2 b3 : Nat) (tail : List Nat), tail.length < readLE32 b0 b1 b2 b3 →
      decodeLoop (b0 :: b1 :: b2 :: b3 :: tail) =
        ([], b0 :: b1 :: b2 :: b3 :: tail)) :=
  ⟨decodeLoop_concat, decodeLoop_short, decodeLoop_incomplete⟩

theorem c2_stream_framing_witness :
    decodeLoop ((([[1, 2], [7]] : List (List Nat)).map encodeFrame).flatten) =
        ([[1, 2], [7]], []) ∧
    decodeLoop [9, 9] = ([], [9, 9]) :=
  ⟨c2_stream_framing.1 [[1, 2], [7]] (by decide),
   c2_stream_framing.2.1 [9, 9] (by decide)⟩

/-- C3 (counterexample): not every TCP carrier error on the connect side arms
the 3-second reconnect timer.  A failed `write_all` on the UDP-ingress path
(main.rs lines 348-351) drops the carrier and clears the flow state but
leaves `connect_again` untouched, so the next dial happens immediately. -/
theorem c3_counterexample :
    (handleTcpError false TcpErrorEvent.ingressWriteErr
        { tcp := true, connect_again := none,
          flows := ⟨[(⟨.v4 10 0 0 1, 40001⟩, ⟨1000⟩)], [], [], []⟩ }).connect_again ≠
      some 3 := by
  decide

/-- C3 (amended): every TCP read/write/flush error and EOF drops the carrier
and clears all four flow maps before the next event-loop iteration, but only
the TCP read *error* path (not EOF and not write/flush errors) arms the
3-second reconnect timer on the connect side; all other error paths leave the
reconnect timer unchanged. -/
theorem c3_carrier_error_cleanup (listen : Bool) (e : TcpErrorEvent) (s : LoopState) :
    (handleTcpError listen e s).tcp = false ∧
    (handleTcpError listen e s).flows = emptyFlows ∧
    (handleTcpError listen e s).connect_again =
      (if listen = false ∧ e = TcpErrorEvent.readErr then some 3
       else s.connect_again) := by
  cases e <;> cases listen <;> simp [handleTcpError]

/-- C8: startup validation fails exactly when `udp_bind` is `Auto` on the
connect side or `udp_sendto` is `Auto` on the listen side; every other
combination passes. -/
theorem c8_auto_mode_gating (udp_bind udp_sendto : PortSpec) (listen : Bool) :
    validateStartup udp_bind udp_sendto listen = false ↔
      (udp_bind.is_auto = true ∧ listen = false) ∨
      (udp_sendto.is_auto = true ∧ listen = true) := by
  cases udp_bind <;> cases udp_sendto <;> cases listen <;>
    simp [validateStartup, PortSpec.is_auto]

/-- C9: `serialize` produces exactly `18 + |data|` bytes with the payload
verbatim after the 18-byte header; the 4-byte little-endian prefix the
program writes decodes back to exactly the body length (the payload fits the
program's 1 MiB receive buffers, so the `as u32` cast does not truncate);
hence every emitted frame has `len ≥ 18` and deserializes successfully. -/
theorem c9_emitted_frames_wellformed (p : UdpPacketWithSource)
    (hip : p.source.ip.wf) (hdata : p.data.length ≤ 1048576) :
    p.serialize.length = 18 + p.data.length ∧
    p.serialize.drop 18 = p.data ∧
    readLE32 ((lenHeader p.serialize).getD 0 0) ((lenHeader p.serialize).getD 1 0)
        ((lenHeader p.serialize).getD 2 0) ((lenHeader p.serialize).getD 3 0) =
      p.serialize.length ∧
    18 ≤ p.serialize.length ∧
    (UdpPacketWithSource.deserialize p.serialize).isSome = true := by
  have hlen : p.serialize.length = 18 + p.data.length := by
    rw [serialize_split, List.length_append, serialize_header_length p hip]
  refine ⟨hlen, ?_, ?_, ?_, ?_⟩
  · rw [serialize_split]
    exact List.drop_left' (serialize_header_length p hip)
  · have hb : p.serialize.length < 4294967296 := by omega
    simp only [lenHeader, toLE32, List.getD_cons_zero, List.getD_cons_succ]
    exact readLE32_toLE32 _ hb
  · omega
  · unfold UdpPacketWithSource.deserialize
    rw [if_neg (by omega)]
    rfl

theorem c9_emitted_frames_wellformed_witness :
    (UdpPacketWithSource.serialize ⟨⟨.v4 127 0 0 1, 9999⟩, [1, 2]⟩).length = 18 + 2 :=
  (c9_emitted_frames_wellformed ⟨⟨.v4 127 0 0 1, 9999⟩, [1, 2]⟩ trivial (by decide)).1

/-- C4 (counterexample): not every flow is evicted after 600 idle seconds.
The listen-side sweep is gated on `!flow_sockets.is_empty()` (main.rs line
567), and per-flow sockets exist only in auto-bind mode; so on the listen
side with a fixed `udp_bind`, a flow tracked in the activity and packet-count
maps (populated by the UDP-ingress path, lines 315-318) survives unchanged
even when it has been idle for far longer than 600 seconds. -/
theorem c4_counterexample :
    listenIdleSweep 10000
        ⟨[], [], [(⟨.v4 10 0 0 1, 40001⟩, 0)], [(⟨.v4 10 0 0 1, 40001⟩, 2)]⟩ =
      ⟨[], [], [(⟨.v4 10 0 0 1, 40001⟩, 0)], [(⟨.v4 10 0 0 1, 40001⟩, 2)]⟩ ∧
    (0 : Nat) + 600 < 10000 := by
  decide

/-- C4 (amended): idle eviction holds for the flows each sweep actually
covers.  On the connect side, any flow whose activity entry is more than
600 seconds old has its activity and packet-count entries removed by the
sweep.  On the listen side, any flow that owns a per-flow socket (auto-bind
mode) and is more than 600 seconds idle has its socket, activity entry and
reverse-index entry removed; listen-side flows without a socket are not
evicted, and the listen-side sweep leaves packet counts in place. -/
theorem c4_idle_eviction (now : Nat) (st : FlowState) (addr : SockAddr) :
    (∀ t, alookup st.socket_last_activity addr = some t → t + 600 < now →
      alookup (connectIdleSweep now st).socket_last_activity addr = none ∧
      alookup (connectIdleSweep now st).flow_packet_counts addr = none) ∧
    (∀ sock t, alookup st.flow_sockets addr = some sock →
      alookup st.socket_last_activity addr = some t → t + 600 < now →
      alookup (listenIdleSweep now st).flow_sockets addr = none ∧
      alookup (listenIdleSweep now st).socket_last_activity addr = none ∧
      alookup (listenIdleSweep now st).socket_to_client sock.localAddr = none) := by
  constructor
  · intro t ht hstale
    have hne : st.socket_last_activity ≠ [] := alookup_ne_nil _ _ _ ht
    have hemp : st.socket_last_activity.isEmpty = false := by
      simpa [List.isEmpty_iff] using hne
    unfold connectIdleSweep
    rw [hemp]
    simp only [Bool.false_eq_true, if_false]
    exact connectSweep_foldl_removes _ st addr (mem_idleKeys _ _ _ _ ht hstale)
  · intro sock t hsock ht hstale
    have hne : st.flow_sockets ≠ [] := alookup_ne_nil _ _ _ hsock
    have hemp : st.flow_sockets.isEmpty = false := by
      simpa [List.isEmpty_iff] using hne
    unfold listenIdleSweep
    rw [hemp]
    simp only [Bool.false_eq_true, if_false]
    exact listenSweep_foldl_removes _ st addr sock (mem_idleKeys _ _ _ _ ht hstale) hsock

theorem c4_idle_eviction_witness :
    alookup (connectIdleSweep 10000
        ⟨[], [], [(⟨.v4 10 0 0 1, 40001⟩, 0)], [(⟨.v4 10 0 0 1, 40001⟩, 2)]⟩
      ).socket_last_activity ⟨.v4 10 0 0 1, 40001⟩ = none :=
  ((c4_idle_eviction 10000
      ⟨[], [], [(⟨.v4 10 0 0 1, 40001⟩, 0)], [(⟨.v4 10 0 0 1, 40001⟩, 2)]⟩
      ⟨.v4 10 0 0 1, 40001⟩).1 0 (by decide) (by decide)).1

/-- C5 (divergence witness): the listen-side idle sweep at a concrete state
with a single flow idle for 700 seconds removes the flow socket, the
reverse-index entry and the activity entry, but leaves the flow's
packet-count entry (`flow_packet_counts.remove` is never called in the
listen-side sweep, main.rs lines 579-588, unlike the connect-side sweep at
lines 605-608 and the spec's invariant), so the four maps are *not* all left
without an entry for the flow. -/
theorem c5_sweep_leaves_packet_count :
    listenIdleSweep 700
        ⟨[(⟨.v4 10 0 0 1, 40001⟩, ⟨1000⟩)],
         [(portKey 1000, ⟨.v4 10 0 0 1, 40001⟩)],
         [(⟨.v4 10 0 0 1, 40001⟩, 0)],
         [(⟨.v4 10 0 0 1, 40001⟩, 5)]⟩ =
      ⟨[], [], [], [(⟨.v4 10 0 0 1, 40001⟩, 5)]⟩ := by
  decide

/-- C6: a received frame body shorter than 18 bytes deserializes to `None`
and its handling leaves the whole loop state (carrier, timer and all four
flow maps) unchanged; a buffer holding a malformed frame followed by a
well-formed frame still gets the well-formed frame processed; and
`deserialize` is total, returning `None` exactly on inputs shorter than
18 bytes (it never panics). -/
theorem c6_malformed_frame_tolerance (bad good : List Nat) (lis isAuto : Bool)
    (eff : FrameEffects) (s : LoopState)
    (hbad : bad.length < 18) (hgood : 18 ≤ good.length)
    (hgood32 : good.length < 4294967296) :
    UdpPacketWithSource.deserialize bad = none ∧
    handleFrame lis isAuto eff s bad = s ∧
    processTcpRead lis isAuto eff s (encodeFrame bad ++ encodeFrame good) =
      (handleFrame lis isAuto eff s good, []) ∧
    (UdpPacketWithSource.deserialize good).isSome = true ∧
    (∀ d : List Nat, UdpPacketWithSource.deserialize d = none ↔ d.length < 18) := by
  have hnone : UdpPacketWithSource.deserialize bad = none := by
    unfold UdpPacketWithSource.deserialize
    rw [if_pos hbad]
  have hskip : handleFrame lis isAuto eff s bad = s := by
    unfold handleFrame
    rw [handleFrameBody_none _ _ _ _ _ hnone]
  have hdec : decodeLoop (encodeFrame bad ++ encodeFrame good) = ([bad, good], []) := by
    rw [decodeLoop_encodeFrame _ _ (by omega)]
    have hg : decodeLoop (encodeFrame good) = ([good], []) := by
      have happ : encodeFrame good = encodeFrame good ++ ([] : List Nat) :=
        (List.append_nil _).symm
      rw [happ, decodeLoop_encodeFrame _ _ hgood32, decodeLoop_nil]
    rw [hg]
  refine ⟨hnone, hskip, ?_, ?_, ?_⟩
  · unfold processTcpRead
    rw [hdec]
    simp only [List.foldl_cons, List.foldl_nil, hskip]
  · unfold UdpPacketWithSource.deserialize
    rw [if_neg (by omega)]
    rfl
  · intro d
    unfold UdpPacketWithSource.deserialize
    by_cases hd : d.length < 18
    · simp [hd]
    · simp [hd]

theorem c6_malformed_frame_tolerance_witness :
    UdpPacketWithSource.deserialize [0] = none :=
  (c6_malformed_frame_tolerance [0] (List.replicate 18 0) true true
      ⟨none, true, 0⟩ ⟨true, none, emptyFlows⟩
      (by decide) (by decide) (by decide)).1

/-- C7: on the listen side in auto-bind mode, when the forward `send_to`
succeeds and the frame is the flow's first packet (stored count zero or
absent, so the incremented count equals 1), the reverse port index afterward
maps the flow socket's local port key to the frame's source — whether the
socket was just created or already present; and when the flow already exists
and its stored count is at least 1 (incremented count greater than 1), a
successful send leaves the reverse port index exactly unchanged. -/
theorem c7_deferred_mapping_refresh (eff : FrameEffects) (st : FlowState)
    (msg : List Nat) (p : UdpPacketWithSource) (sock : FlowSocket)
    (hmsg : UdpPacketWithSource.deserialize msg = some p)
    (hsend : eff.sendOk = true) :
    ((alookup st.flow_sockets p.source = some sock ∨
        (alookup st.flow_sockets p.source = none ∧ eff.bindResult = some sock)) →
      (alookup st.flow_packet_counts p.source).getD 0 = 0 →
      alookup (handleFrameBody true true eff st msg).socket_to_client
        (portKey sock.localPort) = some p.source) ∧
    (∀ n, alookup st.flow_sockets p.source = some sock →
      alookup st.flow_packet_counts p.source = some n → 1 ≤ n →
      (handleFrameBody true true eff st msg).socket_to_client =
        st.socket_to_client) := by
  constructor
  · intro hsel hcount
    rw [handleFrameBody_some _ _ _ _ _ _ hmsg]
    rcases hsel with hhit | ⟨hmiss, hbind⟩
    · rw [handlePacket_hit eff st p sock hhit,
        afterSocketSelect_first eff
          { st with socket_last_activity :=
              ainsert st.socket_last_activity p.source eff.now }
          p sock hsend hcount]
      exact alookup_ainsert_self _ _ _
    · rw [handlePacket_miss_bind eff st p sock hmiss hbind,
        afterSocketSelect_first eff
          { st with
            socket_to_client :=
              ainsert st.socket_to_client (portKey sock.localPort) p.source,
            flow_sockets := ainsert st.flow_sockets p.source sock,
            socket_last_activity :=
              ainsert st.socket_last_activity p.source eff.now }
          p sock hsend hcount]
      exact alookup_ainsert_self _ _ _
  · intro n hhit hcount hn
    rw [handleFrameBody_some _ _ _ _ _ _ hmsg,
      handlePacket_hit eff st p sock hhit,
      afterSocketSelect_later eff
        { st with socket_last_activity :=
            ainsert st.socket_last_activity p.source eff.now }
        p sock n hsend hcount hn]

theorem c7_deferred_mapping_refresh_witness :
    alookup ((handleFrameBody true true ⟨none, true, 50⟩
        ⟨[(⟨.v4 10 0 0 1, 40001⟩, ⟨1000⟩)], [], [], []⟩
        (UdpPacketWithSource.serialize ⟨⟨.v4 10 0 0 1, 40001⟩, [9]⟩)).socket_to_client)
      (portKey 1000) = some ⟨.v4 10 0 0 1, 40001⟩ :=
  (c7_deferred_mapping_refresh ⟨none, true, 50⟩
      ⟨[(⟨.v4 10 0 0 1, 40001⟩, ⟨1000⟩)], [], [], []⟩
      (UdpPacketWithSource.serialize ⟨⟨.v4 10 0 0 1, 40001⟩, [9]⟩)
      ⟨⟨.v4 10 0 0 1, 40001⟩, [9]⟩ ⟨1000⟩
      (by decide) (by decide)).1 (Or.inl (by decide)) (by decide)

/-- C10: on the listen side in auto-bind mode, when a frame arrives from an
unseen source, a failed socket bind skips the frame and leaves the flow state
exactly unchanged (no map gains an entry); a successful bind installs the
socket together with its reverse mapping and its activity entry. -/
theorem c10_flow_creation_atomicity (eff : FrameEffects) (st : FlowState)
    (msg : List Nat) (p : UdpPacketWithSource)
    (hmsg : UdpPacketWithSource.deserialize msg = some p)
    (hmiss : alookup st.flow_sockets p.source = none) :
    (eff.bindResult = none → handleFrameBody true true eff st msg = st) ∧
    (∀ sock, eff.bindResult = some sock →
      alookup (handleFrameBody true true eff st msg).flow_sockets p.source =
        some sock ∧
      alookup (handleFrameBody true true eff st msg).socket_to_client
        (portKey sock.localPort) = some p.source ∧
      alookup (handleFrameBody true true eff st msg).socket_last_activity p.source =
        some eff.now) := by
  constructor
  · intro hbind
    rw [handleFrameBody_some _ _ _ _ _ _ hmsg]
    exact handlePacket_miss_nobind eff st p hmiss hbind
  · intro sock hbind
    rw [handleFrameBody_some _ _ _ _ _ _ hmsg,
      handlePacket_miss_bind eff st p sock hmiss hbind]
    obtain ⟨hfs, hact, hstc⟩ := afterSocketSelect_fields true true eff
      { st with
        socket_to_client := ainsert st.socket_to_client (portKey sock.localPort) p.source,
        flow_sockets := ainsert st.flow_sockets p.source sock,
        socket_last_activity := ainsert st.socket_last_activity p.source eff.now }
      p (some sock)
    refine ⟨?_, ?_, ?_⟩
    · rw [hfs]
      exact alookup_ainsert_self _ _ _
    · rcases hstc with hsame | ⟨sock', heq, hupd⟩
      · rw [hsame]
        exact alookup_ainsert_self _ _ _
      · have hs : sock' = sock := by
          injection heq with he
          exact he.symm
        subst hs
        rw [hupd]
        exact alookup_ainsert_self _ _ _
    · rw [hact]
      exact alookup_ainsert_self _ _ _

theorem c10_flow_creation_atomicity_witness :
    handleFrameBody true true ⟨none, true, 50⟩ ⟨[], [], [], []⟩
        (UdpPacketWithSource.serialize ⟨⟨.v4 10 0 0 1, 40001⟩, [9]⟩) =
      ⟨[], [], [], []⟩ :=
  (c10_flow_creation_atomicity ⟨none, true, 50⟩ ⟨[], [], [], []⟩
      (UdpPacketWithSource.serialize ⟨⟨.v4 10 0 0 1, 40001⟩, [9]⟩)
      ⟨⟨.v4 10 0 0 1, 40001⟩, [9]⟩
      (by decide) (by decide)).1 (by decide)

end UdpOverTcp
